import Mathlib

/-!
Shallow embedding of `src/cache/cache.c` from the EasyDataManager repository.

The C module manages a cache: a singly linked list of `CacheData` nodes
reachable from `cache->dataHead` / `cache->dataTail`.  The linked list is
embedded as a Lean `List CacheData`; pointer identity of nodes corresponds to
list position (two distinct nodes may hold equal field values, so branch
conditions of the C code that compare pointers, such as
`data == cache->dataHead` or `data->next == cache->dataTail`, are translated
to conditions on the position of the node found by the search).

The thread pool is an external collaborator: its `lock`/`unlock` calls bracket
`addData`/`delData` and have no effect on the sequential semantics embedded
here; `addTask` submissions made by `setValue` are returned explicitly as a
list of submitted tasks.  `ELOG_ASSERT` contract checks (name non-NULL and at
most `CACHE_NAME_MAX` characters) are caller obligations that do not influence
the embedded control flow.

`cache.h` is not part of `src/`, so the error-code enumeration and the two
size limits `CACHE_NAME_MAX` and `CACHE_LENGTH_MAX` are modelled from the
spec; the limits are left as parameters (`nameMax`, `lengthMax`) since the
spec fixes only that they are constants.

Machine integers: values are `uint16_t` and lengths `uint8_t`; no arithmetic
is ever performed on them, so they are embedded as `Nat`.  `getSize`
accumulates its two out-parameters in `uint32_t`, so its loop reduces both
accumulators modulo `2 ^ 32` at every step.
-/

set_option autoImplicit false

namespace EDM

/-- Modelled from the spec: the error taxonomy of `cache.h` (the header is not
under `src/`).  Constructor names follow the codes used by `cache.c`; the
spec names them no-error, InvalidName, InvalidLength, EmptyCollection and
NotInitialized respectively. -/
inductive CacheErrCode where
  | CACHE_NO_ERR
  | CACHE_NAME_ERROR
  | CACHE_LENGTH_ERROR
  | CACHE_NO_VALUE
  | CACHE_NOT_INIT
  deriving DecidableEq, Repr

/-- One node of the cache's linked list (`CacheData` in `cache.h`, as used by
`cache.c`): a name, a length counting 16-bit units, the owned value buffer
(`uint16_t*`, holding `length` units), and the optional value-changed listener
(a function pointer, embedded as an opaque `Nat` handle; `none` is `NULL`).
The `next` pointer of the C struct is represented by list structure. -/
structure CacheData where
  name : String
  length : Nat
  value : List Nat
  valueChangedListener : Option Nat
  deriving DecidableEq, Repr

/-- The cache's entry collection: the list of nodes from `dataHead` to
`dataTail`. -/
abbrev DataList := List CacheData

/-- The thread pool constructed by `initCache` (external collaborator; only
the construction parameters passed by `cache.c` are recorded). -/
structure ThreadPool where
  name : String
  maxThreadNum : Nat
  threadStackSize : Nat
  deriving DecidableEq, Repr

/-- The `Cache` struct as `initCache` leaves it: the cache name (`none` when
the invalid-name branch skipped the `strcpy`, leaving the field unset), the
entry collection, and the constructed pool.  The six operation function
pointers wired by `initCache` are the top-level functions of this file. -/
structure Cache where
  name : Option String
  dataList : DataList
  pool : ThreadPool
  deriving DecidableEq, Repr

/-- `initCache` (cache.c lines 47-70): validates the name (`NULL` or longer
than `CACHE_NAME_MAX` is a naming error, and the `strcpy` is skipped), then
unconditionally wires the operations, empties the collection and constructs
the thread pool with name "cache" and the given parameters. -/
def initCache (nameMax : Nat) (name : Option String)
    (maxThreadNum threadStackSize : Nat) : CacheErrCode × Cache :=
  let pool : ThreadPool :=
    { name := "cache", maxThreadNum := maxThreadNum,
      threadStackSize := threadStackSize }
  match name with
  | none =>
    (CacheErrCode.CACHE_NAME_ERROR,
     { name := none, dataList := [], pool := pool })
  | some s =>
    if s.length > nameMax then
      (CacheErrCode.CACHE_NAME_ERROR,
       { name := none, dataList := [], pool := pool })
    else
      (CacheErrCode.CACHE_NO_ERR,
       { name := some s, dataList := [], pool := pool })

/-- `hasData` (cache.c lines 80-102): linear scan from `dataHead`, returning
the first node whose name compares equal (`strcmp == 0`), `NULL` when the
list is empty or exhausted. -/
def hasData : DataList → String → Option CacheData
  | [], _ => none
  | d :: rest, n => if d.name = n then some d else hasData rest n

/-- `addData` (cache.c lines 115-167): under the pool lock, a fresh node is
allocated; a duplicate name yields `CACHE_NAME_ERROR` and a length above
`CACHE_LENGTH_MAX` yields `CACHE_LENGTH_ERROR`, in that order, and in both
error cases the fresh node is freed and the list is untouched.  On success
the first `length` units of `value` are copied into the node's buffer
(`memcpy`), and the node is appended after `dataTail` (the three C branches
for an empty, one-node and longer list all amount to appending at the
tail). -/
def addData (lengthMax : Nat) (l : DataList) (name : String) (length : Nat)
    (value : List Nat) (valueChangedListener : Option Nat) :
    CacheErrCode × DataList :=
  if (hasData l name).isSome then
    (CacheErrCode.CACHE_NAME_ERROR, l)
  else if length > lengthMax then
    (CacheErrCode.CACHE_LENGTH_ERROR, l)
  else
    (CacheErrCode.CACHE_NO_ERR,
     l ++ [{ name := name, length := length, value := value.take length,
             valueChangedListener := valueChangedListener }])

/-- The search loop of `delData` (cache.c lines 190-206), expressed as the
index of the first node whose name matches: the C walk leaves `data` at the
matching node when the head matches, and at the predecessor of the matching
node otherwise. -/
def findDataIdx : DataList → String → Option Nat
  | [], _ => none
  | d :: rest, n =>
    if d.name = n then some 0 else (findDataIdx rest n).map (· + 1)

/-- `delData` (cache.c lines 177-236).  An empty list is `CACHE_NO_VALUE`; a
missing name is `CACHE_NAME_ERROR`.  Otherwise, with the first match at
index `j`, the C unlink phase works on `data`, which is the match itself when
the head matched (`j = 0`) and the match's predecessor otherwise:

* `data == cache->dataHead` holds when `j ≤ 1`; the branch removes the head
  node (either emptying a one-node list or setting `dataHead = data->next`)
  and frees it — so for `j = 1` it removes the head, not the match;
* otherwise `data->next == cache->dataTail` holds when the match is the tail
  (`j + 1 = length`); the branch sets `dataTail` to the predecessor and nulls
  its `next`, then does `data = data->next`, which is now `NULL`, so the
  final `free(data->value)` dereferences a null pointer: embedded as `none`
  (the call never returns);
* otherwise the match is unlinked from the middle and freed. -/
def delData (l : DataList) (name : String) :
    Option (CacheErrCode × DataList) :=
  match l with
  | [] => some (CacheErrCode.CACHE_NO_VALUE, [])
  | _ :: _ =>
    match findDataIdx l name with
    | none => some (CacheErrCode.CACHE_NAME_ERROR, l)
    | some j =>
      if j ≤ 1 then
        if l.length = 1 then some (CacheErrCode.CACHE_NO_ERR, [])
        else some (CacheErrCode.CACHE_NO_ERR, l.drop 1)
      else if j + 1 = l.length then
        none
      else
        some (CacheErrCode.CACHE_NO_ERR, l.eraseIdx j)

/-- `getValue` (cache.c lines 247-266): looks the node up; on success the
out-buffer receives the first `length` units of the node's value buffer,
copied in order (returned here as the list of copied units). -/
def getValue (l : DataList) (name : String) :
    CacheErrCode × Option (List Nat) :=
  match hasData l name with
  | none => (CacheErrCode.CACHE_NAME_ERROR, none)
  | some data =>
    (CacheErrCode.CACHE_NO_ERR, some (data.value.take data.length))

/-- The overwrite loop of `setValue` (cache.c lines 287-293): write the first
`k` units of the input over the buffer, recording whether any written unit
differed from the unit it replaced.  The fall-through cases (buffer or input
shorter than `k`) are out-of-bounds reads in C and unreachable under the
caller contract. -/
def copyDiff : Nat → List Nat → List Nat → List Nat × Bool
  | 0, old, _ => (old, false)
  | k + 1, o :: old, v :: new =>
    let r := copyDiff k old new
    (v :: r.1, (decide (o ≠ v) || r.2))
  | _ + 1, [], _ => ([], false)
  | _ + 1, old, [] => (old, false)

/-- In-place mutation through the node pointer returned by `hasData`: the
first node with the given name is replaced (the C write goes through that
pointer, leaving every other node untouched). -/
def replaceData : DataList → String → CacheData → DataList
  | [], _, _ => []
  | e :: rest, n, d =>
    if e.name = n then d :: rest else e :: replaceData rest n d

/-- A task handed to `pool->addTask` by `setValue`: the listener function
pointer and the `CacheData` node passed as its argument (the node as it
stands after the overwrite). -/
abbrev Task := Nat × CacheData

/-- `setValue` (cache.c lines 277-300): looks the node up (`CACHE_NAME_ERROR`
when absent — the `isValueChanged` flag is still false then, so the
short-circuit `&&` never dereferences the null node and no task is
submitted); otherwise overwrites the node's buffer unit by unit, and when
some unit changed and the listener is non-NULL submits exactly one task
carrying the listener and the node. -/
def setValue (l : DataList) (name : String) (value : List Nat) :
    CacheErrCode × DataList × List Task :=
  match hasData l name with
  | none => (CacheErrCode.CACHE_NAME_ERROR, l, [])
  | some data =>
    let r := copyDiff data.length data.value value
    let data2 : CacheData := { data with value := r.1 }
    let tasks : List Task :=
      match r.2, data2.valueChangedListener with
      | true, some f => [(f, data2)]
      | _, _ => []
    (CacheErrCode.CACHE_NO_ERR, replaceData l name data2, tasks)

/-- `uint32_t` modulus for the two accumulators of `getSize`. -/
def UINT32_MOD : Nat := 2 ^ 32

/-- The traversal loop of `getSize` (cache.c lines 315-325): walks the list
incrementing the entry count and adding `data->length * sizeof(uint16_t)`
bytes per node, in `uint32_t` arithmetic. -/
def getSizeLoop : DataList → Nat → Nat → Nat × Nat
  | [], len, size => (len, size)
  | d :: rest, len, size =>
    getSizeLoop rest ((len + 1) % UINT32_MOD)
      ((size + d.length * 2) % UINT32_MOD)

/-- `getSize` (cache.c lines 310-329): writes the entry count and total byte
size (both initialized to zero), then reports `CACHE_NOT_INIT` when the count
is zero. -/
def getSize (l : DataList) : CacheErrCode × Nat × Nat :=
  let r := getSizeLoop l 0 0
  (if r.1 = 0 then CacheErrCode.CACHE_NOT_INIT else CacheErrCode.CACHE_NO_ERR,
   r.1, r.2)

/-- The sum of the `length` fields over the collection (the mathematical
value accumulated by `getSize`). -/
def sumLengths : DataList → Nat
  | [] => 0
  | d :: rest => d.length + sumLengths rest

/-- The names currently stored in the collection, in order. -/
def namesOf (l : DataList) : List String := l.map CacheData.name

/-- One client operation against the cache, for stating invariants over
operation sequences. -/
inductive CacheOp where
  | add (name : String) (length : Nat) (value : List Nat)
      (valueChangedListener : Option Nat)
  | del (name : String)
  | set (name : String) (value : List Nat)
  | get (name : String)
  | size

/-- The effect of one operation on the entry collection; `none` when the
operation crashes (the null dereference in `delData`'s tail branch).  `get`
and `getSize` read without mutating. -/
def stepOp (lengthMax : Nat) (l : DataList) : CacheOp → Option DataList
  | CacheOp.add n len v lr => some (addData lengthMax l n len v lr).2
  | CacheOp.del n =>
    match delData l n with
    | none => none
    | some r => some r.2
  | CacheOp.set n v => some (setValue l n v).2.1
  | CacheOp.get _ => some l
  | CacheOp.size => some l

/-- Run a sequence of operations from a given collection state. -/
def runOps (lengthMax : Nat) : List CacheOp → DataList → Option DataList
  | [], l => some l
  | op :: rest, l =>
    match stepOp lengthMax l op with
    | none => none
    | some l2 => runOps lengthMax rest l2

/-! ## Helper lemmas -/

theorem hasData_eq_none_iff (l : DataList) (n : String) :
    hasData l n = none ↔ ∀ d ∈ l, d.name ≠ n := by
  induction l with
  | nil => simp [hasData]
  | cons e rest ih =>
    by_cases h : e.name = n <;> simp [hasData, h, ih]

theorem hasData_append_of_none (l1 l2 : DataList) (n : String)
    (h : hasData l1 n = none) : hasData (l1 ++ l2) n = hasData l2 n := by
  induction l1 with
  | nil => rfl
  | cons e rest ih =>
    by_cases he : e.name = n
    · simp [hasData, he] at h
    · simp only [hasData, he, if_false, List.cons_append] at h ⊢
      exact ih h

theorem hasData_name_eq (l : DataList) (n : String) (d : CacheData)
    (h : hasData l n = some d) : d.name = n := by
  induction l with
  | nil => simp [hasData] at h
  | cons e rest ih =>
    by_cases he : e.name = n
    · simp [hasData, he] at h
      rw [← h]; exact he
    · simp only [hasData, he, if_false] at h
      exact ih h

theorem findDataIdx_eq_none (l : DataList) (n : String)
    (h : hasData l n = none) : findDataIdx l n = none := by
  induction l with
  | nil => rfl
  | cons e rest ih =>
    by_cases he : e.name = n
    · simp [hasData, he] at h
    · simp only [hasData, he, if_false] at h
      simp [findDataIdx, he, ih h]

theorem copyDiff_of_length_eq (old new : List Nat)
    (h : old.length = new.length) :
    copyDiff old.length old new = (new, decide (old ≠ new)) := by
  induction old generalizing new with
  | nil =>
    cases new with
    | nil => simp [copyDiff]
    | cons v vs => simp at h
  | cons o os ih =>
    cases new with
    | nil => simp at h
    | cons v vs =>
      have h2 : os.length = vs.length := by simpa using h
      simp only [List.length_cons, copyDiff, ih vs h2]
      by_cases h3 : o = v <;> by_cases h4 : os = vs <;> simp [h3, h4]

theorem namesOf_replaceData (l : DataList) (n : String) (d : CacheData)
    (h : d.name = n) : namesOf (replaceData l n d) = namesOf l := by
  induction l with
  | nil => rfl
  | cons e rest ih =>
    by_cases he : e.name = n
    · simp [replaceData, he, namesOf, h]
    · simp only [replaceData, he, if_false]
      simp only [namesOf, List.map_cons] at ih ⊢
      rw [ih]

theorem namesOf_setValue (l : DataList) (n : String) (v : List Nat) :
    namesOf (setValue l n v).2.1 = namesOf l := by
  unfold setValue
  cases hfind : hasData l n with
  | none => rfl
  | some d =>
    have hn : d.name = n := hasData_name_eq l n d hfind
    exact namesOf_replaceData l n _ hn

theorem delData_sublist (l : DataList) (n : String) (r : CacheErrCode × DataList)
    (h : delData l n = some r) : r.2.Sublist l := by
  cases l with
  | nil =>
    have hr : r = (CacheErrCode.CACHE_NO_VALUE, []) := by
      simpa [delData] using h.symm
    rw [hr]
  | cons a rest =>
    simp only [delData] at h
    split at h
    · have hr : r = (CacheErrCode.CACHE_NAME_ERROR, a :: rest) := by
        simpa using h.symm
      rw [hr]
    · split_ifs at h <;>
        (injection h with h
         subst h
         first
           | exact List.nil_sublist _
           | exact List.drop_sublist 1 _
           | exact List.eraseIdx_sublist _ _)

theorem getSizeLoop_eq (l : DataList) : ∀ c s : Nat, c < UINT32_MOD →
    s < UINT32_MOD → getSizeLoop l c s =
      ((c + l.length) % UINT32_MOD,
       (s + sumLengths l * 2) % UINT32_MOD) := by
  induction l with
  | nil =>
    intro c s hc hs
    simp [getSizeLoop, sumLengths, Nat.mod_eq_of_lt hc, Nat.mod_eq_of_lt hs]
  | cons d rest ih =>
    intro c s hc hs
    have hM : 0 < UINT32_MOD := by norm_num [UINT32_MOD]
    rw [getSizeLoop, ih _ _ (Nat.mod_lt _ hM) (Nat.mod_lt _ hM)]
    rw [Nat.mod_add_mod, Nat.mod_add_mod]
    have e1 : c + 1 + rest.length = c + (d :: rest).length := by
      simp only [List.length_cons]
      omega
    have e2 : s + d.length * 2 + sumLengths rest * 2 =
        s + sumLengths (d :: rest) * 2 := by
      simp only [sumLengths]
      ring
    rw [e1, e2]

theorem not_mem_namesOf_of_hasData_none (l : DataList) (n : String)
    (h : hasData l n = none) : n ∉ namesOf l := by
  intro hmem
  rcases List.mem_map.mp hmem with ⟨d, hd, hname⟩
  exact (hasData_eq_none_iff l n).mp h d hd hname

theorem addData_nodup (lengthMax : Nat) (l : DataList) (n : String) (L : Nat)
    (v : List Nat) (lr : Option Nat) (h : (namesOf l).Nodup) :
    (namesOf (addData lengthMax l n L v lr).2).Nodup := by
  unfold addData
  by_cases h1 : (hasData l n).isSome
  · simpa [h1] using h
  · by_cases h2 : L > lengthMax
    · simpa [h1, h2] using h
    · have hnone : hasData l n = none := Option.not_isSome_iff_eq_none.mp h1
      have hnmem : n ∉ namesOf l := not_mem_namesOf_of_hasData_none l n hnone
      simp only [h1, h2, if_false, Bool.false_eq_true, namesOf, List.map_append,
        List.map_cons, List.map_nil]
      rw [(List.perm_append_singleton _ _).nodup_iff]
      exact List.nodup_cons.mpr ⟨hnmem, h⟩

theorem stepOp_nodup (lengthMax : Nat) (l l2 : DataList) (op : CacheOp)
    (h : stepOp lengthMax l op = some l2) (hn : (namesOf l).Nodup) :
    (namesOf l2).Nodup := by
  cases op with
  | add n len v lr =>
    simp only [stepOp, Option.some.injEq] at h
    rw [← h]
    exact addData_nodup lengthMax l n len v lr hn
  | del n =>
    simp only [stepOp] at h
    cases hdel : delData l n with
    | none => rw [hdel] at h; exact absurd h (by simp)
    | some r =>
      rw [hdel] at h
      simp only [Option.some.injEq] at h
      rw [← h]
      exact hn.sublist ((delData_sublist l n r hdel).map CacheData.name)
  | set n v =>
    simp only [stepOp, Option.some.injEq] at h
    rw [← h, namesOf_setValue]
    exact hn
  | get n =>
    simp only [stepOp, Option.some.injEq] at h
    rw [← h]
    exact hn
  | size =>
    simp only [stepOp, Option.some.injEq] at h
    rw [← h]
    exact hn

theorem runOps_nodup (lengthMax : Nat) (ops : List CacheOp) :
    ∀ l s : DataList, (namesOf l).Nodup → runOps lengthMax ops l = some s →
      (namesOf s).Nodup := by
  induction ops with
  | nil =>
    intro l s hn h
    simp only [runOps, Option.some.injEq] at h
    rw [← h]
    exact hn
  | cons op rest ih =>
    intro l s hn h
    simp only [runOps] at h
    cases hstep : stepOp lengthMax l op with
    | none => rw [hstep] at h; exact absurd h (by simp)
    | some l2 =>
      rw [hstep] at h
      exact ih l2 s (stepOp_nodup lengthMax l l2 op hstep hn) h

theorem getValue_of_hasData_some (l : DataList) (n : String) (d : CacheData)
    (h : hasData l n = some d) :
    getValue l n = (CacheErrCode.CACHE_NO_ERR, some (d.value.take d.length)) := by
  unfold getValue
  rw [h]

/-! ## Claim theorems -/

/-- Claim C1 (refuting evidence): the claim says a successful `delete(n)`
unlinks exactly the Entry named `n` and afterwards `has(n)` is absent.  The
code instead takes the head-removal branch whenever the search stopped at the
head, which also happens when the match is the second node: deleting `"t1"`
from the two-entry list `["t0", "t1"]` returns success, removes `"t0"`, and
leaves `"t1"` present.  Moreover deleting the tail of a three-entry list
never returns: after unlinking, `data = data->next` is `NULL` and
`free(data->value)` dereferences it. -/
theorem delData_removes_wrong_node :
    delData
        [{ name := "t0", length := 1, value := [0], valueChangedListener := none },
         { name := "t1", length := 1, value := [1], valueChangedListener := none }]
        "t1" =
      some (CacheErrCode.CACHE_NO_ERR,
        [{ name := "t1", length := 1, value := [1], valueChangedListener := none }]) ∧
    hasData
        [{ name := "t1", length := 1, value := [1], valueChangedListener := none }]
        "t1" =
      some { name := "t1", length := 1, value := [1], valueChangedListener := none } ∧
    delData
        [{ name := "a", length := 1, value := [2], valueChangedListener := none },
         { name := "b", length := 1, value := [3], valueChangedListener := none },
         { name := "c", length := 1, value := [4], valueChangedListener := none }]
        "c" = none := by
  decide

/-- Claim C2: for a name not already present and a length within
`CACHE_LENGTH_MAX`, `add` succeeds, and a subsequent `get` of that name
succeeds and copies out exactly the added value, in order. -/
theorem add_then_get_returns_value (lengthMax : Nat) (l : DataList)
    (n : String) (L : Nat) (v : List Nat) (lr : Option Nat)
    (h1 : hasData l n = none) (h2 : L ≤ lengthMax) (h3 : v.length = L) :
    (addData lengthMax l n L v lr).1 = CacheErrCode.CACHE_NO_ERR ∧
    getValue (addData lengthMax l n L v lr).2 n =
      (CacheErrCode.CACHE_NO_ERR, some v) := by
  have h4 : ¬L > lengthMax := not_lt.mpr h2
  have hadd : addData lengthMax l n L v lr =
      (CacheErrCode.CACHE_NO_ERR,
       l ++ [{ name := n, length := L, value := v.take L,
               valueChangedListener := lr }]) := by
    simp [addData, h1, h4]
  rw [hadd]
  refine ⟨rfl, ?_⟩
  have hh : hasData
      (l ++ [{ name := n, length := L, value := v.take L,
               valueChangedListener := lr }]) n =
      some { name := n, length := L, value := v.take L,
             valueChangedListener := lr } := by
    rw [hasData_append_of_none l _ n h1]
    simp [hasData]
  rw [getValue_of_hasData_some _ n _ hh]
  have h5 : v.take L = v := by
    rw [← h3]
    exact List.take_length v
  simp [List.take_take, h5]

/-- Claim C3: for an Entry present in the registry and a new buffer of the
Entry's length, `set` succeeds; it submits a listener task exactly when some
written unit differs from the old value and a listener is registered, and
then it submits exactly one task carrying that listener and the affected
Entry (the node after the overwrite). -/
theorem setValue_submits_task_iff_changed (l : DataList) (n : String)
    (v : List Nat) (d : CacheData) (hfind : hasData l n = some d)
    (hlen : v.length = d.length) (hbuf : d.value.length = d.length) :
    (setValue l n v).1 = CacheErrCode.CACHE_NO_ERR ∧
    (setValue l n v).2.2.length =
      (if d.value ≠ v ∧ d.valueChangedListener ≠ none then 1 else 0) ∧
    ∀ t ∈ (setValue l n v).2.2,
      d.valueChangedListener = some t.1 ∧ t.2 = { d with value := v } := by
  have hc : copyDiff d.length d.value v = (v, decide (d.value ≠ v)) := by
    have h0 := copyDiff_of_length_eq d.value v (by rw [hbuf, hlen])
    rwa [hbuf] at h0
  unfold setValue
  rw [hfind]
  simp only [hc]
  by_cases hv : d.value = v
  · cases hl : d.valueChangedListener <;> simp [hv, hl]
  · cases hl : d.valueChangedListener <;> simp [hv, hl]

/-- Claim C4: `getSize` reports the number of Entries and twice the sum of
their element counts as the total byte size (within `uint32_t` range), with
`CACHE_NOT_INIT` and both out-parameters zero on an empty collection and
success otherwise. -/
theorem getSize_counts_and_bytes (l : DataList)
    (h1 : l.length < UINT32_MOD) (h2 : sumLengths l * 2 < UINT32_MOD) :
    getSize l =
      (if l.length = 0 then CacheErrCode.CACHE_NOT_INIT
       else CacheErrCode.CACHE_NO_ERR,
       l.length, sumLengths l * 2) := by
  have hM : (0 : Nat) < UINT32_MOD := by norm_num [UINT32_MOD]
  simp only [getSize, getSizeLoop_eq l 0 0 hM hM, Nat.zero_add,
    Nat.mod_eq_of_lt h1, Nat.mod_eq_of_lt h2]

/-- Claim C5: `add` with a name already present returns `CACHE_NAME_ERROR`
and leaves the collection — every existing Entry, the entry count and the
order — exactly as it was. -/
theorem addData_duplicate_rejected (lengthMax : Nat) (l : DataList)
    (n : String) (L : Nat) (v : List Nat) (lr : Option Nat) (d : CacheData)
    (h : hasData l n = some d) :
    addData lengthMax l n L v lr = (CacheErrCode.CACHE_NAME_ERROR, l) := by
  simp [addData, h]

/-- Claim C6: `add` of a fresh name with a length above `CACHE_LENGTH_MAX`
returns `CACHE_LENGTH_ERROR` and creates no Entry: the collection is exactly
as before the call. -/
theorem addData_overlong_rejected (lengthMax : Nat) (l : DataList)
    (n : String) (L : Nat) (v : List Nat) (lr : Option Nat)
    (h1 : hasData l n = none) (h2 : L > lengthMax) :
    addData lengthMax l n L v lr = (CacheErrCode.CACHE_LENGTH_ERROR, l) := by
  simp [addData, h1, h2]

/-- Claim C7: `delete` on an empty collection returns `CACHE_NO_VALUE`;
`delete` of a name absent from a non-empty collection returns
`CACHE_NAME_ERROR`; in both failure cases the collection is returned
unchanged. -/
theorem delData_failure_leaves_unchanged (l : DataList) (n : String) :
    delData [] n = some (CacheErrCode.CACHE_NO_VALUE, []) ∧
    (l ≠ [] → hasData l n = none →
      delData l n = some (CacheErrCode.CACHE_NAME_ERROR, l)) := by
  refine ⟨rfl, ?_⟩
  intro hne hnone
  cases l with
  | nil => exact absurd rfl hne
  | cons a rest =>
    simp [delData, findDataIdx_eq_none _ n hnone]

/-- Claim C8: starting from the empty collection, any sequence of add,
delete, set, get and getSize operations that runs to completion leaves a
collection in which no two Entries share a name (add rejects duplicates and
is the only Entry-creating operation). -/
theorem cache_names_unique (lengthMax : Nat) (ops : List CacheOp)
    (s : DataList) (h : runOps lengthMax ops [] = some s) :
    (namesOf s).Nodup :=
  runOps_nodup lengthMax ops [] s (by simp [namesOf]) h

/-- Claim C9: `initCache` with a missing name or a name longer than
`CACHE_NAME_MAX` reports `CACHE_NAME_ERROR` but still completes
initialization: the cache name is left unset, the entry collection is empty
and the thread pool is constructed with the given concurrency parameters
(the operation table is wired unconditionally as well). -/
theorem initCache_invalid_name_completes (nameMax : Nat)
    (name : Option String) (m ss : Nat)
    (h : name = none ∨ ∃ s, name = some s ∧ s.length > nameMax) :
    initCache nameMax name m ss =
      (CacheErrCode.CACHE_NAME_ERROR,
       { name := none, dataList := [],
         pool := { name := "cache", maxThreadNum := m,
                   threadStackSize := ss } }) := by
  rcases h with h | ⟨s, hs, hlen⟩
  · rw [h]
    rfl
  · rw [hs]
    simp [initCache, hlen]

/-- Claim C10: `set` of a name with no matching Entry returns
`CACHE_NAME_ERROR`, submits no listener task (the changed flag is still
false, so the short-circuited guard is never taken) and leaves every
Entry's value unchanged. -/
theorem setValue_absent_no_task (l : DataList) (n : String) (v : List Nat)
    (h : hasData l n = none) :
    setValue l n v = (CacheErrCode.CACHE_NAME_ERROR, l, []) := by
  unfold setValue
  rw [h]

/-! ## Witnesses -/

theorem add_then_get_returns_value_witness :
    (addData 16 [] "t1" 2 [1, 2] (some 5)).1 = CacheErrCode.CACHE_NO_ERR ∧
    getValue (addData 16 [] "t1" 2 [1, 2] (some 5)).2 "t1" =
      (CacheErrCode.CACHE_NO_ERR, some [1, 2]) :=
  add_then_get_returns_value 16 [] "t1" 2 [1, 2] (some 5) rfl (by decide) rfl

theorem setValue_submits_task_iff_changed_witness :
    (setValue [{ name := "a", length := 2, value := [1, 2],
                 valueChangedListener := some 7 }] "a" [3, 4]).1 =
      CacheErrCode.CACHE_NO_ERR ∧
    (setValue [{ name := "a", length := 2, value := [1, 2],
                 valueChangedListener := some 7 }] "a" [3, 4]).2.2.length =
      (if ([1, 2] : List Nat) ≠ [3, 4] ∧ (some 7 : Option Nat) ≠ none
       then 1 else 0) ∧
    ∀ t ∈ (setValue [{ name := "a", length := 2, value := [1, 2],
                       valueChangedListener := some 7 }] "a" [3, 4]).2.2,
      (some 7 : Option Nat) = some t.1 ∧
      t.2 = { name := "a", length := 2, value := [3, 4],
              valueChangedListener := some 7 } :=
  setValue_submits_task_iff_changed
    [{ name := "a", length := 2, value := [1, 2],
       valueChangedListener := some 7 }] "a" [3, 4]
    { name := "a", length := 2, value := [1, 2],
      valueChangedListener := some 7 } (by decide) (by decide) (by decide)

theorem getSize_counts_and_bytes_witness :
    getSize [{ name := "a", length := 2, value := [1, 2],
               valueChangedListener := none },
             { name := "b", length := 3, value := [1, 2, 3],
               valueChangedListener := none }] =
      (CacheErrCode.CACHE_NO_ERR, 2, 10) := by
  rw [getSize_counts_and_bytes _ (by decide) (by decide)]
  rfl

theorem addData_duplicate_rejected_witness :
    addData 16 [{ name := "a", length := 1, value := [1],
                  valueChangedListener := none }] "a" 1 [2] none =
      (CacheErrCode.CACHE_NAME_ERROR,
       [{ name := "a", length := 1, value := [1],
          valueChangedListener := none }]) :=
  addData_duplicate_rejected 16 _ "a" 1 [2] none
    { name := "a", length := 1, value := [1], valueChangedListener := none }
    (by decide)

theorem addData_overlong_rejected_witness :
    addData 3 [] "a" 5 [1, 2, 3, 4, 5] none =
      (CacheErrCode.CACHE_LENGTH_ERROR, []) :=
  addData_overlong_rejected 3 [] "a" 5 [1, 2, 3, 4, 5] none rfl (by decide)

theorem delData_failure_leaves_unchanged_witness :
    delData [{ name := "a", length := 1, value := [1],
               valueChangedListener := none }] "zz" =
      some (CacheErrCode.CACHE_NAME_ERROR,
        [{ name := "a", length := 1, value := [1],
           valueChangedListener := none }]) :=
  (delData_failure_leaves_unchanged
    [{ name := "a", length := 1, value := [1],
       valueChangedListener := none }] "zz").2 (by decide) (by decide)

theorem cache_names_unique_witness :
    (namesOf [{ name := "b", length := 1, value := [6],
                valueChangedListener := none }]).Nodup :=
  cache_names_unique 16
    [CacheOp.add "a" 1 [5] none, CacheOp.add "b" 1 [6] none,
     CacheOp.del "a"]
    [{ name := "b", length := 1, value := [6],
       valueChangedListener := none }] (by decide)

theorem initCache_invalid_name_completes_witness :
    initCache 2 (some "abcd") 4 512 =
      (CacheErrCode.CACHE_NAME_ERROR,
       { name := none, dataList := [],
         pool := { name := "cache", maxThreadNum := 4,
                   threadStackSize := 512 } }) :=
  initCache_invalid_name_completes 2 (some "abcd") 4 512
    (Or.inr ⟨"abcd", rfl, by decide⟩)

theorem setValue_absent_no_task_witness :
    setValue [] "x" [1] = (CacheErrCode.CACHE_NAME_ERROR, [], []) :=
  setValue_absent_no_task [] "x" [1] rfl

end EDM
